import Mathlib

/-!
Verification of the trading-dashboard extraction pipeline and metrics engine
(`dashboard.py`) against its natural-language specification.

The Python source is shallowly embedded: pure parsing helpers become Lean
functions over `List Char` / `String`; pandas numeric values become `ℚ`
(Python floats are modelled exactly as rationals; the missing markers `None`
and `NaN` are both modelled as `Option.none`); a function that can raise an
uncaught Python exception returns `Except PyErr _`.
-/

namespace Dashboard

/-- PyErr enumerates the uncaught Python exceptions the embedded code can
raise: `attributeError` models calling `.find` on a `None` result
(dashboard.py line 43), `keyError` models a column access on a DataFrame
that lacks that column (dashboard.py line 78). -/
inductive PyErr where
  | attributeError
  | keyError
deriving DecidableEq

/-! ### Character and digit utilities -/

/-- ASCII lower-casing of one character, modelling the case folding that
`re.IGNORECASE` performs on the ASCII letters used by the source patterns. -/
def asciiLower (c : Char) : Char :=
  if 'A' ≤ c ∧ c ≤ 'Z' then Char.ofNat (c.toNat + 32) else c

/-- Case-insensitive test that `pat` is a prefix of `s`. -/
def matchesCI (pat s : List Char) : Bool :=
  (pat.map asciiLower).isPrefixOf (s.map asciiLower)

/-- Numeric value of a decimal digit character. -/
def digitVal (c : Char) : ℕ := c.toNat - 48

/-- Decimal digit character for a value below ten. -/
def digitChar (n : ℕ) : Char := Char.ofNat (48 + n)

/-- Decimal digits of a natural number, most significant first, as Python's
`str` renders the integer part of a number. -/
def natToDigits (n : ℕ) : List Char :=
  if h : n < 10 then [digitChar n]
  else natToDigits (n / 10) ++ [digitChar (n % 10)]
decreasing_by
  exact Nat.div_lt_self (Nat.lt_of_lt_of_le (by norm_num) (Nat.le_of_not_lt h)) (by norm_num)

/-- Value of a list of decimal digit characters, most significant first. -/
def digitsToNat (ds : List Char) : ℕ :=
  ds.foldl (fun a c => 10 * a + digitVal c) 0

/-- Longest prefix of decimal digits of a character list, with the remainder. -/
def takeDigits : List Char → List Char × List Char
  | [] => ([], [])
  | c :: rest =>
    if c.isDigit then
      let p := takeDigits rest
      (c :: p.1, p.2)
    else ([], c :: rest)

/-! ### Number Normalizer (`clean_and_format_number`, dashboard.py lines 13-18) -/

/-- Characters removed by the character class `[$\s,¥+%]` of the substitution
pattern in `clean_and_format_number` (`\s` is the ASCII whitespace class). -/
def strippedChar (c : Char) : Bool :=
  c ∈ ['$', ' ', '\t', '\n', '\r', '\x0b', '\x0c', ',', '¥', '+', '%']

/-- Model of `re.sub(r'[$\s,¥+%]|CHF|≈|lots', '', text, flags=re.IGNORECASE)`:
a left-to-right scan deleting, at each position, the first alternative that
matches — one stripped character, the token `CHF`, the character `≈`, or the
token `lots`, the two alphabetic tokens case-insensitively. -/
def stripTokens : List Char → List Char
  | [] => []
  | c :: rest =>
    if strippedChar c then stripTokens rest
    else if matchesCI (['C', 'H', 'F']) (c :: rest) then
      stripTokens (List.drop 3 (c :: rest))
    else if c = '≈' then stripTokens rest
    else if matchesCI (['l', 'o', 't', 's']) (c :: rest) then
      stripTokens (List.drop 4 (c :: rest))
    else c :: stripTokens rest
termination_by s => s.length
decreasing_by
  · simp
  · simp [List.length_drop]; omega
  · simp
  · simp [List.length_drop]; omega
  · simp

/-- Model of the exponent tail accepted by `pd.to_numeric`: either nothing
remains, or `e`/`E`, an optional sign and a nonempty digit run consume the
whole remainder. Returns the signed exponent. -/
def parseExpTail (s : List Char) : Option ℤ :=
  match s with
  | [] => Option.some 0
  | c :: t =>
    if c = 'e' ∨ c = 'E' then
      let p : ℤ × List Char :=
        match t with
        | '-' :: u => (-1, u)
        | '+' :: u => (1, u)
        | _ => (1, t)
      let d := takeDigits p.2
      if d.1.isEmpty ∨ !d.2.isEmpty then Option.none
      else Option.some (p.1 * (digitsToNat d.1 : ℤ))
    else Option.none

/-- Leading sign of a numeric literal: the signum factor and the remainder. -/
def splitSign (s : List Char) : ℚ × List Char :=
  match s with
  | '-' :: t => (-1, t)
  | '+' :: t => (1, t)
  | _ => (1, s)

/-- Unsigned part of the numeric grammar: a digit run with an optional
fractional part (at least one digit overall) and an optional exponent must
consume the whole string. -/
def parseBody (sgn : ℚ) (s : List Char) : Option ℚ :=
  let ip := takeDigits s
  match ip.2 with
  | '.' :: t =>
    let fp := takeDigits t
    if ip.1.isEmpty ∧ fp.1.isEmpty then Option.none
    else
      match parseExpTail fp.2 with
      | Option.some e =>
        Option.some (sgn * ((digitsToNat ip.1 : ℚ) +
          (digitsToNat fp.1 : ℚ) / 10 ^ fp.1.length) * (10 : ℚ) ^ e)
      | Option.none => Option.none
  | _ =>
    if ip.1.isEmpty then Option.none
    else
      match parseExpTail ip.2 with
      | Option.some e => Option.some (sgn * (digitsToNat ip.1 : ℚ) * (10 : ℚ) ^ e)
      | Option.none => Option.none

/-- Model of `pd.to_numeric(text, errors='coerce')` on the stripped text: an
optional sign and the unsigned grammar above; anything else coerces to the
missing marker. Python floats are modelled exactly as rationals, and the
`NaN` produced by a failed coercion is identified with the absent value
`Option.none`. -/
def parseNumeric (s : List Char) : Option ℚ :=
  parseBody (splitSign s).1 (splitSign s).2

/-- PyVal is the type of values that can reach `clean_and_format_number`:
the function is called on extracted markup text, but when re-applied to its
own output it receives `None` or a float. -/
inductive PyVal where
  | none
  | str (s : String)
  | num (q : ℚ)
deriving DecidableEq

/-- Python truthiness of a `PyVal`: `None`, the empty string and the number
zero are falsy, everything else is truthy (the `if not text` guard). -/
def pyTruthy : PyVal → Bool
  | PyVal.none => false
  | PyVal.str s => !s.data.isEmpty
  | PyVal.num q => !(q = 0)

/-- Smallest exponent `k` with `d ∣ 10 ^ k`, when one exists below `d + 1`
(it always does for denominators of decimal-representable rationals). -/
def pow10Exp (d : ℕ) : Option ℕ :=
  (List.range (d + 1)).find? (fun k => d ∣ 10 ^ k)

/-- Model of Python `str` on a float, for floats whose exact value is the
rational `q` with a finite decimal expansion: optional minus sign, integer
digits, a decimal point and the shortest fractional digit run (at least one
digit, so integers render with a trailing `.0`). Python switches to
scientific notation for extreme magnitudes; both renderings parse back to
the same value, and the plain decimal form is used here. Rationals without
a finite decimal expansion are not values of Python floats and render as
the empty string. -/
def pyStrOfRat (q : ℚ) : List Char :=
  match pow10Exp q.den with
  | Option.none => []
  | Option.some k =>
    let k1 := max k 1
    let scaled : ℕ := q.num.natAbs * 10 ^ k1 / q.den
    let fdigits := natToDigits (scaled % 10 ^ k1)
    (if q.num < 0 then ['-'] else []) ++ natToDigits (scaled / 10 ^ k1) ++
      '.' :: (List.replicate (k1 - fdigits.length) '0' ++ fdigits)

/-- Python `str` of a truthy `PyVal` (`str(text)` in the source). -/
def pyStr : PyVal → List Char
  | PyVal.none => ['N', 'o', 'n', 'e']
  | PyVal.str s => s.data
  | PyVal.num q => pyStrOfRat q

/-- Model of `clean_and_format_number` (dashboard.py lines 13-18): falsy
input returns the missing marker; otherwise the input is rendered with
`str`, the currency decorations are stripped and the remainder is coerced
to a number. -/
def clean_and_format_number (v : PyVal) : Option ℚ :=
  if !pyTruthy v then Option.none
  else parseNumeric (stripTokens (pyStr v))

/-! ### Substring search (used by the fingerprint regex and `'ago' in s`) -/

/-- Remainder of `s` after the first occurrence of `pat`, or `Option.none`
when `pat` does not occur in `s` (the scan of `re.search`). -/
def afterFirst (pat : List Char) : List Char → Option (List Char)
  | [] => if pat.isEmpty then Option.some [] else Option.none
  | c :: rest =>
    if pat.isPrefixOf (c :: rest) then Option.some (List.drop pat.length (c :: rest))
    else afterFirst pat rest

/-- Substring test. -/
def isSubstrOf (pat s : List Char) : Bool := (afterFirst pat s).isSome

/-- Case-insensitive substring test (`'ago' in date_str.lower()`). -/
def containsCI (pat s : List Char) : Bool :=
  isSubstrOf (pat.map asciiLower) (s.map asciiLower)

/-- Existence of non-overlapping occurrences of each pattern in the given
order, the semantics of an `a.*b.*c` regex search: each pattern is located
after the end of the previous one (searching from the first occurrence,
which is complete for this pattern shape). -/
def containsInOrder : List (List Char) → List Char → Bool
  | [], _ => true
  | p :: ps, s =>
    match afterFirst p s with
    | Option.some r => containsInOrder ps r
    | Option.none => false

/-! ### Date Normalizer (`format_close_date`, dashboard.py lines 20-29) -/

/-- Calendar date, compared by (year, month, day). Pandas timestamps are
modelled as a date plus a minute-of-day; `%Y-%m-%d` granularity claims only
inspect the date component. -/
structure Date where
  year : ℕ
  month : ℕ
  day : ℕ
deriving DecidableEq

/-- Lexicographic order on dates, the order Python uses on `datetime.date`. -/
def dateLe (a b : Date) : Bool :=
  if a.year ≠ b.year then decide (a.year < b.year)
  else if a.month ≠ b.month then decide (a.month < b.month)
  else decide (a.day ≤ b.day)

/-- Point in time: calendar date and minute of the day. -/
structure Timestamp where
  date : Date
  minuteOfDay : ℕ
deriving DecidableEq

/-- Month abbreviations recognized by `strptime`'s `%b` (C locale). -/
def monthAbbrevs : List (List Char) :=
  [("Jan").data, ("Feb").data, ("Mar").data, ("Apr").data, ("May").data,
   ("Jun").data, ("Jul").data, ("Aug").data, ("Sep").data, ("Oct").data,
   ("Nov").data, ("Dec").data]

/-- Month number of a three-letter abbreviation, case-insensitively. -/
def monthFromAbbrev (s : List Char) : Option ℕ :=
  (monthAbbrevs.findIdx? (fun m => m.map asciiLower == s.map asciiLower)).map
    (fun i => i + 1)

/-- Gregorian leap-year test. -/
def isLeapYear (y : ℕ) : Bool := (y % 4 == 0 && y % 100 != 0) || y % 400 == 0

/-- Number of days of a month (the validity bound `datetime` enforces). -/
def daysInMonth (y m : ℕ) : ℕ :=
  if m = 2 then (if isLeapYear y then 29 else 28)
  else if m ∈ [4, 6, 9, 11] then 30 else 31

/-- Model of `datetime.strptime(date_str, '%d %b %Y, %I:%M %p')`: one- or
two-digit day, month abbreviation, four-digit year, comma, twelve-hour time
and an AM/PM marker must consume the whole string; the month name and the
AM/PM marker match case-insensitively; out-of-range fields (day 0, hour 13,
minute 60, day past the month's end, year 0) raise `ValueError` in Python,
which the source catches by falling through — modelled as `Option.none`. -/
def strptimeExact (s : List Char) : Option Timestamp :=
  let dp := takeDigits s
  if dp.1.length = 0 ∨ 2 < dp.1.length then Option.none else
  let day := digitsToNat dp.1
  match dp.2 with
  | ' ' :: r1 =>
    match monthFromAbbrev (r1.take 3) with
    | Option.none => Option.none
    | Option.some m =>
      match r1.drop 3 with
      | ' ' :: r2 =>
        let yp := takeDigits r2
        if yp.1.length ≠ 4 then Option.none else
        let y := digitsToNat yp.1
        match yp.2 with
        | ',' :: ' ' :: r3 =>
          let hp := takeDigits r3
          if hp.1.length = 0 ∨ 2 < hp.1.length then Option.none else
          let h12 := digitsToNat hp.1
          if h12 < 1 ∨ 12 < h12 then Option.none else
          match hp.2 with
          | ':' :: r4 =>
            let mp := takeDigits r4
            if mp.1.length = 0 ∨ 2 < mp.1.length then Option.none else
            let mins := digitsToNat mp.1
            if 59 < mins then Option.none else
            match mp.2 with
            | ' ' :: p1 :: p2 :: rest =>
              if rest ≠ [] then Option.none else
              if !([p1, p2].map asciiLower = (['a', 'm']) ∨
                   [p1, p2].map asciiLower = (['p', 'm'])) then Option.none else
              if y < 1 ∨ day < 1 ∨ daysInMonth y m < day then Option.none else
              let h24 :=
                if [p1, p2].map asciiLower = (['p', 'm']) then
                  (if h12 = 12 then 12 else h12 + 12)
                else (if h12 = 12 then 0 else h12)
              Option.some ⟨⟨y, m, day⟩, h24 * 60 + mins⟩
            | _ => Option.none
          | _ => Option.none
        | _ => Option.none
      | _ => Option.none
  | _ => Option.none

/-- Model of the generic fallback `pd.to_datetime(date_str, errors='coerce')`
restricted to ISO `YYYY-MM-DD` dates; the real best-effort parser accepts
further formats that no claim depends on, and every unparseable string
coerces to `NaT`, modelled as `Option.none`. -/
def parseIsoDate (s : List Char) : Option Timestamp :=
  let yp := takeDigits s
  if yp.1.length ≠ 4 then Option.none else
  match yp.2 with
  | '-' :: r1 =>
    let mp := takeDigits r1
    if mp.1.length ≠ 2 then Option.none else
    match mp.2 with
    | '-' :: r2 =>
      let dp := takeDigits r2
      if dp.1.length ≠ 2 ∨ dp.2 ≠ [] then Option.none else
      let y := digitsToNat yp.1
      let m := digitsToNat mp.1
      let d := digitsToNat dp.1
      if y < 1 ∨ m < 1 ∨ 12 < m ∨ d < 1 ∨ daysInMonth y m < d then Option.none
      else Option.some ⟨⟨y, m, d⟩, 0⟩
    | _ => Option.none
  | _ => Option.none

/-- Model of `format_close_date` (dashboard.py lines 20-29): empty text is
falsy and yields the missing marker; text containing `ago` collapses to
midnight of the current date (`today` is the ambient clock passed as a
parameter); otherwise the exact trade layout is tried and failure falls
back to the generic parse. -/
def format_close_date (today : Date) (s : String) : Option Timestamp :=
  if s.data.isEmpty then Option.none
  else if containsCI (("ago").data) s.data then Option.some ⟨today, 0⟩
  else
    match strptimeExact s.data with
    | Option.some ts => Option.some ts
    | Option.none => parseIsoDate s.data

/-! ### Record Extractor and Table Builder
(`parse_html_to_dataframe`, dashboard.py lines 31-80)

The document tree is modelled at the granularity the source queries it: a
document is the list of `div` elements scanned by `find_all`, each carrying
its class-attribute tokens (the HTML tree builder splits `class` on
whitespace into a multi-valued attribute) and the results of the fixed
sub-queries the extractor performs on it. Each `Option` field models one
`find` call: `Option.none` when the query has no match (or the matched tag
is empty, hence falsy), `Option.some` the extracted text otherwise. -/

/-- Container located by `asset_info_div.find('div', class_='flex items-center')`,
holding the text of its `find('div', class_=lambda x: x and 'mx-1' in x)`. -/
structure ClassContainer where
  classDivText : Option String
deriving DecidableEq

/-- Region located by `record.find('div', title='Asset info')`. -/
structure AssetInfo where
  namePText : Option String
  tickerSpanText : Option String
  classContainer : Option ClassContainer
deriving DecidableEq

/-- Region located by `record.find('div', class_='portfolio-styles_typeColumn__Psx6k')`,
holding the text of its `find('span', class_='laptop:flex hidden')`. -/
structure TypeColumn where
  typeSpanText : Option String
deriving DecidableEq

/-- Region located by `record.find('div', title='Profit/Loss')`. -/
structure PLDiv where
  amountPText : Option String
  percentDivText : Option String
deriving DecidableEq

/-- Region located by `record.find('div', title='Close date')`. -/
structure CloseDateDiv where
  datePText : Option String
deriving DecidableEq

/-- Candidate-record container: the four sub-regions the extractor queries. -/
structure RawRecord where
  typeColumn : Option TypeColumn
  assetInfo : Option AssetInfo
  plDiv : Option PLDiv
  closeDateDiv : Option CloseDateDiv
deriving DecidableEq

/-- One `div` element of the scanned document: its class tokens and its
sub-query results. -/
structure HtmlDiv where
  classTokens : List String
  record : RawRecord
deriving DecidableEq

/-- First fingerprint token of the `find_all` pattern. -/
def fpTok1 : List Char := ("border-grey-300").data

/-- Second fingerprint token of the `find_all` pattern. -/
def fpTok2 : List Char := ("border-b").data

/-- Third fingerprint token of the `find_all` pattern. -/
def fpTok3 : List Char := ("last-of-type:border-none").data

/-- Semantics of searching one class token with the compiled pattern
`border-grey-300.*border-b.*last-of-type:border-none`: the three fingerprint
tokens must occur in that order within the token. -/
def fingerprintRegex (s : List Char) : Bool :=
  containsInOrder [fpTok1, fpTok2, fpTok3] s

/-- Whitespace-joined value of a multi-valued class attribute, the
`' '.join(markup)` BeautifulSoup builds for its whole-attribute retry. -/
def attrValue : List String → List Char
  | [] => []
  | [tok] => tok.data
  | tok :: rest => tok.data ++ ' ' :: attrValue rest

/-- Model of `soup.find_all('div', class_=re.compile(...))` membership for a
multi-valued class attribute: BeautifulSoup first applies the compiled
pattern to each class token separately and, when no single token matches,
retries it against the whitespace-joined attribute value, so a `div` is a
candidate record exactly when some class token or the joined attribute
value matches the regex. -/
def fingerprintMatch (classes : List String) : Bool :=
  classes.any (fun tok => fingerprintRegex tok.data) ||
    fingerprintRegex (attrValue classes)

/-- TradeRecord row of the typed dataset (the dict built at lines 63-71). -/
structure Row where
  type : Option String
  assetName : Option String
  assetTicker : Option String
  assetClass : String
  plAmount : Option ℚ
  percent : Option ℚ
  closeDate : Option Timestamp
deriving DecidableEq

/-- Text of the asset-class leaf of a raw record, when present. -/
def assetClassText (r : RawRecord) : Option String :=
  r.assetInfo.bind (fun ai => ai.classContainer.bind (fun c => c.classDivText))

/-- Per-record extraction (loop body, dashboard.py lines 41-74). Line 43
chains `.find` on the result of the type-column query before the
completeness check of line 49, so a record with no type-column `div` raises
`AttributeError` (modelled as `Except.error`); a record whose type-column is
present but which misses any of the four checked parts is skipped
(`Except.ok Option.none`); otherwise the row dict is built, with the asset
class defaulting to `Other` and the amount, percent and date fields going
through the Normalizers. Inside the `try` block every sub-access is guarded
in the source, so the `except` path adds no further outcome. -/
def extractRecord (today : Date) (r : RawRecord) : Except PyErr (Option Row) :=
  match r.typeColumn with
  | Option.none => Except.error PyErr.attributeError
  | Option.some tc =>
    match tc.typeSpanText, r.assetInfo, r.plDiv, r.closeDateDiv with
    | Option.some t, Option.some ai, Option.some pl, Option.some cd =>
      Except.ok (Option.some
        ⟨Option.some t,
         ai.namePText,
         ai.tickerSpanText,
         (ai.classContainer.bind (fun c => c.classDivText)).getD ("Other"),
         pl.amountPText.bind (fun a => clean_and_format_number (PyVal.str a)),
         pl.percentDivText.bind (fun a => clean_and_format_number (PyVal.str a)),
         cd.datePText.bind (fun d => format_close_date today d)⟩)
    | _, _, _, _ => Except.ok Option.none

/-- Extraction loop over all candidate records: the first uncaught exception
aborts the whole loop, skipped records contribute nothing, parsed rows are
collected in order. -/
def extractAll (today : Date) : List RawRecord → Except PyErr (List Row)
  | [] => Except.ok []
  | r :: rs =>
    match extractRecord today r with
    | Except.error e => Except.error e
    | Except.ok Option.none => extractAll today rs
    | Except.ok (Option.some row) => (extractAll today rs).map (fun l => row :: l)

/-- Required-field policy of the final `dropna` (line 79): a row is kept
when both its close date and its profit/loss amount are present. -/
def rowKept (r : Row) : Bool := r.closeDate.isSome && r.plAmount.isSome

/-- Model of `parse_html_to_dataframe` (dashboard.py lines 31-80). Zero
candidates return the empty frame early (line 37). Otherwise the loop runs;
an uncaught `AttributeError` propagates. When every candidate was skipped,
`pd.DataFrame([])` has no columns and the column access of line 78 raises
`KeyError`; otherwise line 78 re-coerces the date column (a no-op here, the
column already holds timestamps or missing markers) and line 79 drops the
rows missing a required field. -/
def parse_html_to_dataframe (today : Date) (doc : List HtmlDiv) :
    Except PyErr (List Row) :=
  let records := doc.filter (fun d => fingerprintMatch d.classTokens)
  if records.isEmpty then Except.ok []
  else
    match extractAll today (records.map (fun d => d.record)) with
    | Except.error e => Except.error e
    | Except.ok parsed =>
      if parsed.isEmpty then Except.error PyErr.keyError
      else Except.ok (parsed.filter rowKept)

/-! ### Filtering and Metrics Engine (`show_dashboard`, dashboard.py lines 96-288) -/

/-- Date component of a row's close timestamp (`Close Date`.dt.date); the
missing marker `NaT` has no date and compares false below. -/
def rowDate (r : Row) : Option Date := r.closeDate.map (fun ts => ts.date)

/-- Row predicate of the `df.query` of lines 179-181: the asset class is one
of the selected values (comparing a column to a list in `query` is
membership) and the date component of the close date lies in the inclusive
range; a missing date compares false on both bounds, as `NaT` does. -/
def selectionPred (allowed : List String) (startD endD : Date) (r : Row) : Bool :=
  decide (r.assetClass ∈ allowed) &&
    match rowDate r with
    | Option.some d => dateLe startD d && dateLe d endD
    | Option.none => false

/-- Model of `df_selection` (dashboard.py lines 179-181). -/
def df_selection (df : List Row) (allowed : List String) (startD endD : Date) :
    List Row :=
  df.filter (selectionPred allowed startD endD)

/-- Model of the conversion factor of line 197,
`rates.get(selected_currency, 1) if rates else 1`: a failed lookup service
(`None`) and an empty mapping are both falsy and give factor 1, and a
mapping without the selected currency falls back to `get`'s default 1. -/
def conversion_rate (rates : Option (List (String × ℚ))) (cur : String) : ℚ :=
  match rates with
  | Option.none => 1
  | Option.some m => if m.isEmpty then 1 else ((m.lookup cur).getD 1)

/-- Converted profit/loss of one row (line 198): the unconverted amount
multiplied by the conversion factor. -/
def convertedPL (rate : ℚ) (r : Row) : ℚ := r.plAmount.getD 0 * rate

/-- Sum of the `Converted P/L` column over a set of rows. -/
def convSum (rate : ℚ) (rows : List Row) : ℚ :=
  (rows.map (convertedPL rate)).sum

/-- Winning rows (line 211): unconverted amount strictly positive; the
comparison uses the original column, and a missing amount compares false. -/
def winningTrades (rows : List Row) : List Row :=
  rows.filter (fun r =>
    match r.plAmount with
    | Option.some a => decide (0 < a)
    | Option.none => false)

/-- Losing-or-zero rows (line 212): unconverted amount at most zero. -/
def losingTrades (rows : List Row) : List Row :=
  rows.filter (fun r =>
    match r.plAmount with
    | Option.some a => decide (a ≤ 0)
    | Option.none => false)

/-- Scalar summary computed at lines 200-219. `profitFactor` lives in
`WithTop ℚ` with `⊤` standing for Python's `float('inf')`. The
inclusive-day count of the filter range is computed by the UI layer from
the two selected dates and enters as the `numDays` argument. -/
structure Metrics where
  totalProfit : ℚ
  numTrades : ℕ
  winRate : ℚ
  grossProfit : ℚ
  grossLoss : ℚ
  profitFactor : WithTop ℚ
  profitByDay : ℚ
  winners : List Row
  losers : List Row
deriving DecidableEq

/-- Model of the summary-metrics block (dashboard.py lines 200-219) on the
filtered rows, with `rate` the conversion factor and `numDays` the value of
`(end_date - start_date).days + 1`. -/
def computeMetrics (rate : ℚ) (numDays : ℤ) (rows : List Row) : Metrics :=
  let tot := convSum rate rows
  let n := rows.length
  let win := winningTrades rows
  let lose := losingTrades rows
  let gp := convSum rate win
  let gl := |convSum rate lose|
  ⟨tot, n,
   (if 0 < n then ((win.length : ℚ) / (n : ℚ)) * 100 else 0),
   gp, gl,
   (if 0 < gl then ((gp / gl : ℚ) : WithTop ℚ) else (⊤ : WithTop ℚ)),
   (if 0 < numDays then tot / (numDays : ℚ) else 0),
   win, lose⟩

/-- Model of the metrics step of `show_dashboard`: an empty filtered set
stops the run before any metric is computed (`st.stop()`, line 186) —
reported as `Option.none` — and a nonempty one yields the computed metrics. -/
def run_metrics (rate : ℚ) (numDays : ℤ) (rows : List Row) : Option Metrics :=
  if rows.isEmpty then Option.none else Option.some (computeMetrics rate numDays rows)

/-- Distinct elements of a list of dates, first occurrences kept, skipping
dates already seen (the group keys of a pandas `groupby` before sorting). -/
def distinctDatesAux (seen : List Date) : List Date → List Date
  | [] => []
  | d :: rest =>
    if d ∈ seen then distinctDatesAux seen rest
    else d :: distinctDatesAux (d :: seen) rest

/-- Distinct dates of a list, first occurrences kept. -/
def distinctDates (l : List Date) : List Date := distinctDatesAux [] l

/-- Insertion of a date into a list sorted ascending by `dateLe`. -/
def insertDateSorted (d : Date) : List Date → List Date
  | [] => [d]
  | e :: rest => if dateLe d e then d :: e :: rest else e :: insertDateSorted d rest

/-- Ascending insertion sort on dates (pandas group keys are sorted
ascending by default). -/
def sortDates (l : List Date) : List Date := l.foldr insertDateSorted []

/-- Model of the daily series of line 244,
`df_selection.groupby(df_selection["Close Date"].dt.date)["Converted P/L"].sum()`:
the distinct close dates sorted ascending, each paired with the sum of
converted profit/loss of its rows (rows with a missing date form no group). -/
def daily_profit (rate : ℚ) (rows : List Row) : List (Date × ℚ) :=
  (sortDates (distinctDates (rows.filterMap rowDate))).map
    (fun d => (d, convSum rate (rows.filter (fun r => rowDate r == Option.some d))))

/-- Running-sum scan with accumulator, the semantics of `Series.cumsum`. -/
def cumsumFrom (acc : ℚ) : List (Date × ℚ) → List (Date × ℚ)
  | [] => []
  | p :: rest => (p.1, acc + p.2) :: cumsumFrom (acc + p.2) rest

/-- Model of the cumulative series of line 245, `daily_profit.cumsum()`. -/
def cumulative_profit (rate : ℚ) (rows : List Row) : List (Date × ℚ) :=
  cumsumFrom 0 (daily_profit rate rows)

/-! ### Specification-side definitions

These definitions follow the spec's wording and are compared with the
source-side definitions above in the claim theorems. -/

/-- Profit factor as the spec words it: the sum of converted P/L over
winning rows divided by the absolute value of the sum of converted P/L over
losing-or-zero rows, `⊤` (plus infinity) when that denominator is zero. -/
def profit_factor_spec (rate : ℚ) (rows : List Row) : WithTop ℚ :=
  if convSum rate (losingTrades rows) = 0 then (⊤ : WithTop ℚ)
  else (((convSum rate (winningTrades rows)) /
    |convSum rate (losingTrades rows)| : ℚ) : WithTop ℚ)

/-- Running cumulative sums as the spec words them: the i-th value is the
sum of the first i+1 daily values. -/
def running_sums (l : List ℚ) : List ℚ :=
  (List.range l.length).map (fun i => (l.take (i + 1)).sum)

/-- Subset-containment fingerprint matching as the spec words it: every
required token is a substring of the (space-joined) class attribute value,
irrespective of order. -/
def allFingerprintTokensPresent (classes : List String) : Bool :=
  [fpTok1, fpTok2, fpTok3].all
    (fun t => isSubstrOf t (attrValue classes))

/-- Ordered-occurrence decomposition: the three fingerprint tokens occur in
the fixed order within the text, with arbitrary text around and between. -/
def hasTokensInOrder (s : List Char) : Prop :=
  ∃ a b c d, s = a ++ fpTok1 ++ b ++ fpTok2 ++ c ++ fpTok3 ++ d

/-! ### Example data used by counterexamples and witnesses -/

/-- Ambient clock date used when evaluating the extractor on examples. -/
def exToday : Date := ⟨2024, 5, 1⟩

/-- Class token matching the fingerprint regex (the three required
substrings occur inside it in order). -/
def candTok : String := ("border-grey-300border-blast-of-type:border-none")

/-- Well-formed candidate record: every sub-region present, amount and date
parseable. -/
def goodRecord : RawRecord :=
  ⟨Option.some ⟨Option.some ("Buy")⟩,
   Option.some ⟨Option.some ("Gold"), Option.some ("XAU"),
     Option.some ⟨Option.some ("Commodities")⟩⟩,
   Option.some ⟨Option.some ("$1,234.56"), Option.some ("+5.2%")⟩,
   Option.some ⟨Option.some ("2 hours ago")⟩⟩

/-- Malformed candidate record: the type-column `div` is absent, so line 43
calls `.find` on `None`. -/
def noTypeColRecord : RawRecord :=
  ⟨Option.none, goodRecord.assetInfo, goodRecord.plDiv, goodRecord.closeDateDiv⟩

/-- Candidate record missing the `Asset info` sub-region: caught by the
completeness check of line 49 and skipped. -/
def noAssetInfoRecord : RawRecord :=
  ⟨Option.some ⟨Option.some ("Sell")⟩, Option.none,
   goodRecord.plDiv, goodRecord.closeDateDiv⟩

/-- Document with one well-formed and one type-column-less candidate. -/
def docFaultIsolation : List HtmlDiv :=
  [⟨[candTok], goodRecord⟩, ⟨[candTok], noTypeColRecord⟩]

/-- Document whose single candidate record is skipped by the line-49 check. -/
def docAllSkipped : List HtmlDiv := [⟨[candTok], noAssetInfoRecord⟩]

/-- Winning sample row (unconverted amount 5). -/
def rowWin : Row :=
  ⟨Option.some ("Buy"), Option.none, Option.none, ("Other"),
   Option.some 5, Option.none, Option.some ⟨⟨2024, 1, 2⟩, 10⟩⟩

/-- Losing sample row (unconverted amount -2). -/
def rowLose : Row :=
  ⟨Option.some ("Sell"), Option.none, Option.none, ("Other"),
   Option.some (-2), Option.none, Option.some ⟨⟨2024, 1, 3⟩, 20⟩⟩

/-- Two-row sample dataset. -/
def sampleRows : List Row := [rowWin, rowLose]

/-! ### Claim theorems -/

/-- C1: the spec asserts per-record fault isolation — a document with N
well-formed candidate records and one malformed candidate (here: missing
the type-column sub-region needed for the nested type indicator) yields
exactly N typed rows. The code instead chains `.find` on the type-column
query result before its completeness check, so the malformed record raises
an uncaught `AttributeError` and the whole extraction aborts with no
dataset at all: on a document with one well-formed record and one record
lacking the type column, `parse_html_to_dataframe` raises instead of
returning one row. -/
theorem c1_fault_isolation_crash :
    parse_html_to_dataframe exToday docFaultIsolation =
      Except.error PyErr.attributeError := by
  rfl

/-- C2: the spec asserts extraction never raises and that "candidates found
but every record skipped" yields a valid empty dataset. When every
candidate is skipped by the line-49 completeness check, `parsed_data` is
empty, `pd.DataFrame([])` has no columns, and the column access
`df['Close Date']` of line 78 raises an uncaught `KeyError`: on a document
whose single candidate lacks the `Asset info` region, the code errors
instead of returning an empty dataset. -/
theorem c2_all_skipped_keyerror :
    parse_html_to_dataframe exToday docAllSkipped = Except.error PyErr.keyError := by
  rfl

/-- C4: membership in the filtered set used by the metrics engine is
exactly the conjunction of the two filter predicates — the row's asset
class belongs to the allowed set, and the date component of its close date
(time of day ignored) lies within the inclusive range. -/
theorem c4_filter_membership (df : List Row) (allowed : List String)
    (startD endD : Date) (r : Row) :
    r ∈ df_selection df allowed startD endD ↔
      r ∈ df ∧ r.assetClass ∈ allowed ∧
        ∃ ts, r.closeDate = Option.some ts ∧
          dateLe startD ts.date = true ∧ dateLe ts.date endD = true := by
  simp only [df_selection, List.mem_filter, selectionPred, rowDate,
    Bool.and_eq_true, decide_eq_true_eq]
  cases hts : r.closeDate with
  | none => simp [hts]
  | some ts =>
    simp [hts, Option.map_some, and_assoc]

/-- Scaling of the converted sum by the conversion factor. -/
theorem convSum_scale (rate : ℚ) (rows : List Row) :
    convSum rate rows = rate * convSum 1 rows := by
  induction rows with
  | nil => simp [convSum]
  | cons r rs ih =>
    simp only [convSum, List.map_cons, List.sum_cons] at ih ⊢
    rw [ih]
    simp only [convertedPL]
    ring

/-- C5: win/loss classification uses the unconverted profit/loss column, so
two metrics runs that differ only in the conversion factor partition the
rows into winners and losers identically; the monetary total scales by the
factor. -/
theorem c5_classification_rate_invariant (r1 r2 : ℚ) (nd1 nd2 : ℤ)
    (rows : List Row) :
    (computeMetrics r1 nd1 rows).winners = (computeMetrics r2 nd2 rows).winners ∧
    (computeMetrics r1 nd1 rows).losers = (computeMetrics r2 nd2 rows).losers ∧
    (computeMetrics r1 nd1 rows).totalProfit =
      r1 * (computeMetrics 1 nd1 rows).totalProfit := by
  exact ⟨rfl, rfl, convSum_scale r1 rows⟩

/-- C6: for a nonempty filtered set the metrics are computed and the profit
factor equals the spec's formula — gross winning converted P/L divided by
the absolute losing-or-zero converted P/L, plus infinity when that
denominator is zero — while an empty filtered set reports the empty result
without evaluating any division. -/
theorem c6_profit_factor (rate : ℚ) (nd : ℤ) (rows : List Row)
    (h : rows ≠ []) :
    run_metrics rate nd rows = Option.some (computeMetrics rate nd rows) ∧
    (computeMetrics rate nd rows).profitFactor = profit_factor_spec rate rows ∧
    run_metrics rate nd [] = Option.none := by
  refine ⟨by simp [run_metrics, h], ?_, rfl⟩
  simp only [computeMetrics, profit_factor_spec]
  by_cases hz : convSum rate (losingTrades rows) = 0
  · simp [hz]
  · have hpos : 0 < |convSum rate (losingTrades rows)| := abs_pos.mpr hz
    simp [hz, hpos]

/-- C6 witness: on the two-row sample with factor 1 the metrics are
computed and the profit factor is 5/2. -/
theorem c6_profit_factor_witness :
    run_metrics 1 3 sampleRows = Option.some (computeMetrics 1 3 sampleRows) ∧
    (computeMetrics 1 3 sampleRows).profitFactor = ((5 / 2 : ℚ) : WithTop ℚ) := by
  have h := c6_profit_factor 1 3 sampleRows (by decide)
  refine ⟨h.1, ?_⟩
  rw [h.2.1]
  simp [profit_factor_spec, convSum, convertedPL, losingTrades, winningTrades,
    sampleRows, rowWin, rowLose]

/-- C10: a successful rate lookup whose mapping lacks the selected currency
yields conversion factor 1 — the same fallback as a failed lookup — and the
metrics computation proceeds on any nonempty filtered set. -/
theorem c10_missing_currency_defaults (m : List (String × ℚ)) (cur : String)
    (h : m.lookup cur = Option.none) :
    conversion_rate (Option.some m) cur = 1 ∧
    conversion_rate (Option.some m) cur = conversion_rate Option.none cur ∧
    (∀ (nd : ℤ) (rows : List Row), rows ≠ [] →
      (run_metrics (conversion_rate (Option.some m) cur) nd rows).isSome = true) := by
  have h1 : conversion_rate (Option.some m) cur = 1 := by
    cases m with
    | nil => rfl
    | cons a t => simp [conversion_rate, h]
  refine ⟨h1, by rw [h1]; rfl, ?_⟩
  intro nd rows hr
  simp [run_metrics, hr]

/-- C10 witness: a mapping containing only EUR, with GBP selected. -/
theorem c10_missing_currency_witness :
    conversion_rate (Option.some [(("EUR"), (9 / 10 : ℚ))]) ("GBP") = 1 ∧
    (run_metrics (conversion_rate (Option.some [(("EUR"), (9 / 10 : ℚ))]) ("GBP"))
      3 sampleRows).isSome = true := by
  have h := c10_missing_currency_defaults [(("EUR"), (9 / 10 : ℚ))] ("GBP") (by rfl)
  exact ⟨h.1, h.2.2 3 sampleRows (by decide)⟩

/-! ### Substring-search lemmas (for the fingerprint characterization, C3) -/

/-- Boolean prefix test as an existential decomposition. -/
theorem isPrefixOf_iff_append :
    ∀ (p s : List Char), p.isPrefixOf s = true ↔ ∃ t, s = p ++ t := by
  intro p
  induction p with
  | nil =>
    intro s
    simp [List.isPrefixOf]
  | cons a as ih =>
    intro s
    cases s with
    | nil =>
      simp [List.isPrefixOf]
    | cons b bs =>
      simp only [List.isPrefixOf, Bool.and_eq_true, beq_iff_eq, List.cons_append]
      rw [ih bs]
      constructor
      · rintro ⟨rfl, t, rfl⟩
        exact ⟨t, rfl⟩
      · rintro ⟨t, h⟩
        injection h with h1 h2
        exact ⟨h1.symm, t, h2⟩

/-- Behaviour of `afterFirst` when the pattern matches at the current head. -/
theorem afterFirst_of_isPrefixOf (p s : List Char) (h : p.isPrefixOf s = true) :
    afterFirst p s = Option.some (s.drop p.length) := by
  cases s with
  | nil =>
    cases p with
    | nil => rfl
    | cons a as => simp [List.isPrefixOf] at h
  | cons c rest => simp [afterFirst, h]

/-- Soundness of `afterFirst`: a successful search decomposes the text. -/
theorem afterFirst_sound (p : List Char) :
    ∀ (s r : List Char), afterFirst p s = Option.some r → ∃ a, s = a ++ p ++ r := by
  intro s
  induction s with
  | nil =>
    intro r h
    cases p with
    | nil =>
      simp [afterFirst] at h
      exact ⟨[], by simp [h]⟩
    | cons x xs => simp [afterFirst, List.isEmpty] at h
  | cons c rest ih =>
    intro r h
    rw [afterFirst] at h
    by_cases hp : p.isPrefixOf (c :: rest) = true
    · rw [if_pos hp] at h
      injection h with h2
      obtain ⟨t, ht⟩ := (isPrefixOf_iff_append p (c :: rest)).mp hp
      refine ⟨[], ?_⟩
      rw [List.nil_append, ht]
      rw [ht, List.drop_left] at h2
      rw [h2]
    · rw [if_neg hp] at h
      obtain ⟨a, ha⟩ := ih r h
      exact ⟨c :: a, by simp [ha]⟩

/-- Completeness of `afterFirst`: whenever the pattern occurs, the search
succeeds and stops no later than the given occurrence, so the text after
the given occurrence is a suffix of the returned remainder. -/
theorem afterFirst_complete (p : List Char) :
    ∀ (a b : List Char),
      ∃ r c, afterFirst p (a ++ p ++ b) = Option.some r ∧ r = c ++ b := by
  intro a
  induction a with
  | nil =>
    intro b
    have hp : p.isPrefixOf (p ++ b) = true :=
      (isPrefixOf_iff_append p (p ++ b)).mpr ⟨b, rfl⟩
    refine ⟨b, [], ?_, rfl⟩
    rw [List.nil_append, afterFirst_of_isPrefixOf p (p ++ b) hp, List.drop_left]
  | cons x a ih =>
    intro b
    by_cases hp : p.isPrefixOf (x :: (a ++ p ++ b)) = true
    · refine ⟨(x :: (a ++ p ++ b)).drop p.length,
        ((x :: (a ++ p ++ b)).drop p.length).take (a.length + 1), ?_, ?_⟩
      · have h1 := afterFirst_of_isPrefixOf p (x :: (a ++ p ++ b)) hp
        have hx : (x :: a) ++ p ++ b = x :: (a ++ p ++ b) := by simp
        rw [hx, h1]
      · have hsplit : ((x :: (a ++ p ++ b)).drop p.length).drop (a.length + 1) = b := by
          rw [List.drop_drop]
          have hs2 : x :: (a ++ p ++ b) = ((x :: a) ++ p) ++ b := by simp
          have hlen : a.length + 1 + p.length = ((x :: a) ++ p).length := by
            simp only [List.length_append, List.length_cons]
          rw [Nat.add_comm p.length (a.length + 1), hlen, hs2, List.drop_left]
        conv_lhs => rw [← List.take_append_drop (a.length + 1)
          ((x :: (a ++ p ++ b)).drop p.length)]
        rw [hsplit]
    · obtain ⟨r, c, h1, h2⟩ := ih b
      refine ⟨r, c, ?_, h2⟩
      have hx : (x :: a) ++ p ++ b = x :: (a ++ p ++ b) := by simp
      rw [hx, afterFirst, if_neg hp]
      exact h1

/-- Reduction of the in-order search when the first pattern is absent. -/
theorem containsInOrder_cons_none {p : List Char} {ps : List (List Char)}
    {s : List Char} (h : afterFirst p s = Option.none) :
    containsInOrder (p :: ps) s = false := by
  rw [containsInOrder, h]

/-- Reduction of the in-order search past the first pattern's occurrence. -/
theorem containsInOrder_cons_some {p : List Char} {ps : List (List Char)}
    {s r : List Char} (h : afterFirst p s = Option.some r) :
    containsInOrder (p :: ps) s = containsInOrder ps r := by
  rw [containsInOrder, h]

/-- Characterization of one class token matching the compiled fingerprint
pattern: the regex search succeeds exactly when the three fingerprint
tokens occur in the fixed order. -/
theorem fingerprintRegex_iff (s : List Char) :
    fingerprintRegex s = true ↔ hasTokensInOrder s := by
  unfold fingerprintRegex hasTokensInOrder
  constructor
  · intro h
    cases h1 : afterFirst fpTok1 s with
    | none => rw [containsInOrder_cons_none h1] at h; exact absurd h (by simp)
    | some r1 =>
      rw [containsInOrder_cons_some h1] at h
      cases h2 : afterFirst fpTok2 r1 with
      | none => rw [containsInOrder_cons_none h2] at h; exact absurd h (by simp)
      | some r2 =>
        rw [containsInOrder_cons_some h2] at h
        cases h3 : afterFirst fpTok3 r2 with
        | none => rw [containsInOrder_cons_none h3] at h; exact absurd h (by simp)
        | some r3 =>
          obtain ⟨a, ha⟩ := afterFirst_sound fpTok1 s r1 h1
          obtain ⟨b, hb⟩ := afterFirst_sound fpTok2 r1 r2 h2
          obtain ⟨c, hc⟩ := afterFirst_sound fpTok3 r2 r3 h3
          refine ⟨a, b, c, r3, ?_⟩
          rw [ha, hb, hc]
          simp
  · rintro ⟨a, b, c, d, rfl⟩
    have hS : a ++ fpTok1 ++ b ++ fpTok2 ++ c ++ fpTok3 ++ d =
        a ++ fpTok1 ++ (b ++ (fpTok2 ++ (c ++ (fpTok3 ++ d)))) := by simp
    obtain ⟨r1, c1, h1, hr1⟩ :=
      afterFirst_complete fpTok1 a (b ++ (fpTok2 ++ (c ++ (fpTok3 ++ d))))
    subst hr1
    have hr1e : c1 ++ (b ++ (fpTok2 ++ (c ++ (fpTok3 ++ d)))) =
        (c1 ++ b) ++ fpTok2 ++ (c ++ (fpTok3 ++ d)) := by simp
    obtain ⟨r2, c2, h2, hr2⟩ :=
      afterFirst_complete fpTok2 (c1 ++ b) (c ++ (fpTok3 ++ d))
    subst hr2
    have hr2e : c2 ++ (c ++ (fpTok3 ++ d)) = (c2 ++ c) ++ fpTok3 ++ d := by simp
    obtain ⟨r3, c3, h3, hr3⟩ := afterFirst_complete fpTok3 (c2 ++ c) d
    rw [hS, containsInOrder_cons_some h1, hr1e, containsInOrder_cons_some h2,
      hr2e, containsInOrder_cons_some h3]
    rfl

/-- Every class token is a contiguous substring of the joined attribute
value. -/
theorem attrValue_substr_of_mem :
    ∀ (classes : List String) (tok : String), tok ∈ classes →
      ∃ u v, attrValue classes = u ++ tok.data ++ v := by
  intro classes
  induction classes with
  | nil =>
    intro tok h
    exact absurd h (List.not_mem_nil tok)
  | cons t rest ih =>
    intro tok h
    cases rest with
    | nil =>
      rw [List.mem_singleton] at h
      subst h
      exact ⟨[], [], by simp [attrValue]⟩
    | cons r rs =>
      rw [List.mem_cons] at h
      rcases h with rfl | h
      · exact ⟨[], ' ' :: attrValue (r :: rs), by simp [attrValue]⟩
      · obtain ⟨u, v, huv⟩ := ih tok h
        exact ⟨t.data ++ ' ' :: u, v, by simp [attrValue, huv]⟩

/-- Ordered occurrences survive embedding into a larger text. -/
theorem hasTokensInOrder_extend (u v s : List Char) (h : hasTokensInOrder s) :
    hasTokensInOrder (u ++ s ++ v) := by
  obtain ⟨a, b, c, d, rfl⟩ := h
  exact ⟨u ++ a, b, c, d ++ v, by simp⟩

/-- C3 (amended): the Record Extractor recognizes a container as a
candidate trade record iff the whitespace-joined value of its class
attribute contains the three fingerprint substrings `border-grey-300`,
`border-b`, `last-of-type:border-none` in that fixed order, with arbitrary
text between and around — extra or reordered utility classes elsewhere are
tolerated, and the tokens may be spread across separate classes — but the
matching is an order-sensitive regex search over the attribute value, not
order-independent subset containment. (A match inside a single class token
is subsumed: the token is a substring of the joined value.) -/
theorem c3_fingerprint_ordered_joined (classes : List String) :
    fingerprintMatch classes = true ↔ hasTokensInOrder (attrValue classes) := by
  unfold fingerprintMatch
  rw [Bool.or_eq_true, List.any_eq_true]
  constructor
  · rintro (⟨tok, hm, hreg⟩ | hreg)
    · obtain ⟨u, v, huv⟩ := attrValue_substr_of_mem classes tok hm
      rw [huv]
      exact hasTokensInOrder_extend u v tok.data
        ((fingerprintRegex_iff tok.data).mp hreg)
    · exact (fingerprintRegex_iff _).mp hreg
  · intro hio
    exact Or.inr ((fingerprintRegex_iff _).mpr hio)

/-- Demonstration that the recognizer accepts the realistic vendor markup:
the three fingerprint tokens as separate class tokens, in order, are
matched through the joined-attribute retry. -/
theorem fingerprintMatch_inorder_tokens :
    fingerprintMatch
      [("border-grey-300"), ("border-b"), ("last-of-type:border-none")] = true := by
  decide

/-- Class attribute holding exactly the three required fingerprint tokens,
in an order different from the regex's fixed order. -/
def reorderedTokens : List String :=
  [("last-of-type:border-none"), ("border-b"), ("border-grey-300")]

/-- C3 counterexample: a container whose class attribute contains all the
required fingerprint tokens (subset containment holds over the attribute
value) is nevertheless not recognized as a candidate when the tokens do not
occur in the regex's order, and extraction of a document made of such a
container finds no candidates. -/
theorem c3_counterexample :
    allFingerprintTokensPresent reorderedTokens = true ∧
    fingerprintMatch reorderedTokens = false ∧
    parse_html_to_dataframe exToday [⟨reorderedTokens, goodRecord⟩] =
      Except.ok [] := by
  exact ⟨by decide, by decide, by rfl⟩

/-! ### Cumulative-series lemma and C8 -/

/-- Value column of a cumulative scan: the i-th entry is the accumulator
plus the sum of the first i+1 daily values. -/
theorem cumsumFrom_map_snd (l : List (Date × ℚ)) :
    ∀ a : ℚ, (cumsumFrom a l).map Prod.snd =
      (List.range l.length).map
        (fun i => a + ((l.map Prod.snd).take (i + 1)).sum) := by
  induction l with
  | nil => intro a; rfl
  | cons p rest ih =>
    intro a
    simp only [cumsumFrom, List.map_cons, List.length_cons,
      List.range_succ_eq_map, List.map_map]
    congr 1
    · simp
    · rw [ih (a + p.2)]
      refine List.map_congr_left ?_
      intro i _
      simp [Function.comp, List.take_succ_cons, add_assoc]

/-- C8: the cumulative series of the performance chart is the running sum,
in date order, of the daily sums of converted profit/loss; in particular a
daily series with values [10, -3, 7] yields the cumulative series
[10, 7, 14]. -/
theorem c8_cumulative (rate : ℚ) (rows : List Row) :
    ((cumulative_profit rate rows).map Prod.snd =
      running_sums ((daily_profit rate rows).map Prod.snd)) ∧
    ((daily_profit rate rows).map Prod.snd = [10, -3, 7] →
      (cumulative_profit rate rows).map Prod.snd = [10, 7, 14]) := by
  have key : (cumulative_profit rate rows).map Prod.snd =
      running_sums ((daily_profit rate rows).map Prod.snd) := by
    unfold cumulative_profit running_sums
    rw [cumsumFrom_map_snd]
    simp [List.length_map]
  refine ⟨key, fun hd => ?_⟩
  rw [key, hd]
  norm_num [running_sums, List.range_succ]

/-- Sample row closing 2024-01-01 with amount 10. -/
def rowD1 : Row :=
  ⟨Option.some ("t"), Option.none, Option.none, ("Other"),
   Option.some 10, Option.none, Option.some ⟨⟨2024, 1, 1⟩, 0⟩⟩

/-- Sample row closing 2024-01-02 with amount -3. -/
def rowD2 : Row :=
  ⟨Option.some ("t"), Option.none, Option.none, ("Other"),
   Option.some (-3), Option.none, Option.some ⟨⟨2024, 1, 2⟩, 0⟩⟩

/-- Sample row closing 2024-01-03 with amount 7. -/
def rowD3 : Row :=
  ⟨Option.some ("t"), Option.none, Option.none, ("Other"),
   Option.some 7, Option.none, Option.some ⟨⟨2024, 1, 3⟩, 0⟩⟩

/-- Three-day sample dataset with daily sums [10, -3, 7]. -/
def sampleDailyRows : List Row := [rowD1, rowD2, rowD3]

/-- C8 witness: on the three-day sample with factor 1 the daily series is
[10, -3, 7] and the cumulative series is [10, 7, 14]. -/
theorem c8_cumulative_witness :
    (daily_profit 1 sampleDailyRows).map Prod.snd = [10, -3, 7] ∧
    (cumulative_profit 1 sampleDailyRows).map Prod.snd = [10, 7, 14] := by
  have hd : (daily_profit 1 sampleDailyRows).map Prod.snd = [10, -3, 7] := by
    simp [daily_profit, sampleDailyRows, rowD1, rowD2, rowD3, rowDate, distinctDates,
      distinctDatesAux, sortDates, insertDateSorted, dateLe, convSum, convertedPL]
  exact ⟨hd, (c8_cumulative 1 sampleDailyRows).2 hd⟩

/-! ### C7: required-field policy and the asset-class default -/

/-- C7: every row of a successfully extracted typed dataset has both a
present close date and a present profit/loss amount (rows failing either
are dropped silently, and a failed extraction returns no rows at all); and
a parsed record whose asset-class leaf is absent yields the sentinel
category `Other`, so the asset class is never absent. -/
theorem c7_required_fields (today : Date) :
    (∀ (doc : List HtmlDiv) (rows : List Row),
      parse_html_to_dataframe today doc = Except.ok rows →
      ∀ r ∈ rows, r.closeDate.isSome = true ∧ r.plAmount.isSome = true) ∧
    (∀ (rec : RawRecord) (row : Row),
      extractRecord today rec = Except.ok (Option.some row) →
      assetClassText rec = Option.none → row.assetClass = ("Other")) := by
  constructor
  · intro doc rows hok r hr
    simp only [parse_html_to_dataframe] at hok
    by_cases he : (doc.filter (fun d => fingerprintMatch d.classTokens)).isEmpty = true
    · rw [if_pos he] at hok
      injection hok with h
      subst h
      simp at hr
    · rw [if_neg he] at hok
      cases hE : extractAll today
          ((doc.filter (fun d => fingerprintMatch d.classTokens)).map
            (fun d => d.record)) with
      | error e =>
        rw [hE] at hok
        exact absurd hok (by simp)
      | ok parsed =>
        rw [hE] at hok
        change (if parsed.isEmpty = true then Except.error PyErr.keyError
          else Except.ok (parsed.filter rowKept)) = Except.ok rows at hok
        by_cases hpe : parsed.isEmpty = true
        · rw [if_pos hpe] at hok
          exact absurd hok (by simp)
        · rw [if_neg hpe] at hok
          injection hok with h
          subst h
          rw [List.mem_filter] at hr
          have h2 := hr.2
          unfold rowKept at h2
          rw [Bool.and_eq_true] at h2
          exact h2
  · intro rec row hok hac
    rcases rec with ⟨tcol, ainfo, pl, cd⟩
    cases tcol with
    | none => exact absurd hok (by simp [extractRecord])
    | some tc =>
      rcases tc with ⟨tst⟩
      cases tst with
      | none => exact absurd hok (by simp [extractRecord])
      | some t =>
        cases ainfo with
        | none => exact absurd hok (by simp [extractRecord])
        | some ai =>
          cases pl with
          | none => exact absurd hok (by simp [extractRecord])
          | some pld =>
            cases cd with
            | none => exact absurd hok (by simp [extractRecord])
            | some cdd =>
              simp only [extractRecord] at hok
              have hrow : row =
                  ⟨Option.some t, ai.namePText, ai.tickerSpanText,
                   (ai.classContainer.bind (fun c => c.classDivText)).getD ("Other"),
                   pld.amountPText.bind
                     (fun a => clean_and_format_number (PyVal.str a)),
                   pld.percentDivText.bind
                     (fun a => clean_and_format_number (PyVal.str a)),
                   cdd.datePText.bind (fun d => format_close_date today d)⟩ := by
                injection hok with h1
                injection h1 with h2
                exact h2.symm
              rw [hrow]
              show (ai.classContainer.bind (fun c => c.classDivText)).getD ("Other") =
                ("Other")
              simp only [assetClassText, Option.some_bind] at hac
              rw [hac]
              rfl

/-- Candidate record whose amount text is unparseable while its date is
valid; its row is dropped by the required-field policy. -/
def badAmountRecord : RawRecord :=
  ⟨Option.some ⟨Option.some ("Buy")⟩,
   Option.some ⟨Option.some ("Oil"), Option.none,
     Option.some ⟨Option.some ("Commodities")⟩⟩,
   Option.some ⟨Option.some ("N/A"), Option.none⟩,
   Option.some ⟨Option.some ("3 days ago")⟩⟩

/-- Candidate record with no asset-class leaf; its row defaults to `Other`. -/
def noClassRecord : RawRecord :=
  ⟨Option.some ⟨Option.some ("Sell")⟩,
   Option.some ⟨Option.some ("Tesla"), Option.none, Option.none⟩,
   Option.some ⟨Option.some ("42"), Option.none⟩,
   Option.some ⟨Option.some ("04 Jan 2024, 02:30 PM")⟩⟩

/-- Document exercising the required-field drop and the class default. -/
def docRequiredFields : List HtmlDiv :=
  [⟨[candTok], goodRecord⟩, ⟨[candTok], badAmountRecord⟩, ⟨[candTok], noClassRecord⟩]

/-- Row extracted from `goodRecord`. -/
def goodRow : Row :=
  ⟨Option.some ("Buy"), Option.some ("Gold"), Option.some ("XAU"), ("Commodities"),
   Option.some (30864 / 25), Option.some (26 / 5), Option.some ⟨exToday, 0⟩⟩

/-- Row extracted from `badAmountRecord` (amount missing, dropped later). -/
def badRow : Row :=
  ⟨Option.some ("Buy"), Option.some ("Oil"), Option.none, ("Commodities"),
   Option.none, Option.none, Option.some ⟨exToday, 0⟩⟩

/-- Row extracted from `noClassRecord`. -/
def noClassRow : Row :=
  ⟨Option.some ("Sell"), Option.some ("Tesla"), Option.none, ("Other"),
   Option.some 42, Option.none, Option.some ⟨⟨2024, 1, 4⟩, 870⟩⟩

/-- Evaluation of the Number Normalizer on the good record's amount text. -/
theorem goodAmount_eval :
    clean_and_format_number (PyVal.str ("$1,234.56")) = Option.some (30864 / 25) := by
  simp [clean_and_format_number, pyTruthy, pyStr, stripTokens, strippedChar, matchesCI,
    asciiLower, parseNumeric, splitSign, parseBody, takeDigits, parseExpTail,
    digitsToNat, digitVal]
  norm_num

/-- Evaluation of the Number Normalizer on the good record's percent text. -/
theorem goodPercent_eval :
    clean_and_format_number (PyVal.str ("+5.2%")) = Option.some (26 / 5) := by
  simp [clean_and_format_number, pyTruthy, pyStr, stripTokens, strippedChar, matchesCI,
    asciiLower, parseNumeric, splitSign, parseBody, takeDigits, parseExpTail,
    digitsToNat, digitVal]
  norm_num

/-- Evaluation of the Number Normalizer on the unparseable amount text. -/
theorem badAmount_eval :
    clean_and_format_number (PyVal.str ("N/A")) = Option.none := by
  simp [clean_and_format_number, pyTruthy, pyStr, stripTokens, strippedChar, matchesCI,
    asciiLower, parseNumeric, splitSign, parseBody, takeDigits, parseExpTail]

/-- Evaluation of the Number Normalizer on the plain integer amount text. -/
theorem intAmount_eval :
    clean_and_format_number (PyVal.str ("42")) = Option.some 42 := by
  simp [clean_and_format_number, pyTruthy, pyStr, stripTokens, strippedChar, matchesCI,
    asciiLower, parseNumeric, splitSign, parseBody, takeDigits, parseExpTail,
    digitsToNat, digitVal]

/-- Evaluation of the Date Normalizer on a relative date. -/
theorem agoHours_eval :
    format_close_date exToday ("2 hours ago") = Option.some ⟨exToday, 0⟩ := by rfl

/-- Evaluation of the Date Normalizer on another relative date. -/
theorem agoDays_eval :
    format_close_date exToday ("3 days ago") = Option.some ⟨exToday, 0⟩ := by rfl

/-- Evaluation of the Date Normalizer on the exact trade layout. -/
theorem strptime_eval :
    format_close_date exToday ("04 Jan 2024, 02:30 PM") =
      Option.some ⟨⟨2024, 1, 4⟩, 870⟩ := by rfl

/-- Per-record extraction of the well-formed record. -/
theorem extract_good :
    extractRecord exToday goodRecord = Except.ok (Option.some goodRow) := by
  simp [extractRecord, goodRecord, goodRow, goodAmount_eval, goodPercent_eval,
    agoHours_eval]

/-- Per-record extraction of the bad-amount record. -/
theorem extract_bad :
    extractRecord exToday badAmountRecord = Except.ok (Option.some badRow) := by
  simp [extractRecord, badAmountRecord, badRow, badAmount_eval, agoDays_eval]

/-- Per-record extraction of the class-less record. -/
theorem extract_noclass :
    extractRecord exToday noClassRecord = Except.ok (Option.some noClassRow) := by
  simp [extractRecord, noClassRecord, noClassRow, intAmount_eval, strptime_eval]

/-- Extraction of the whole three-record document: the bad-amount row is
present before the required-field pass and dropped by it. -/
theorem parse_docRequiredFields :
    parse_html_to_dataframe exToday docRequiredFields =
      Except.ok [goodRow, noClassRow] := by
  have hfp : fingerprintMatch [candTok] = true := by decide
  simp [parse_html_to_dataframe, docRequiredFields, hfp, extractAll,
    extract_good, extract_bad, extract_noclass, Except.map, List.filter,
    rowKept, goodRow, badRow, noClassRow]

/-- C7 witness: on the three-record document the bad-amount row is dropped,
both retained rows have both required fields, and the class-less record's
row carries the sentinel `Other`. -/
theorem c7_required_fields_witness :
    parse_html_to_dataframe exToday docRequiredFields =
      Except.ok [goodRow, noClassRow] ∧
    goodRow.closeDate.isSome = true ∧ goodRow.plAmount.isSome = true ∧
    noClassRow.assetClass = ("Other") := by
  have h := c7_required_fields exToday
  have hmem := h.1 docRequiredFields [goodRow, noClassRow] parse_docRequiredFields
    goodRow (by simp)
  exact ⟨parse_docRequiredFields, hmem.1, hmem.2,
    h.2 noClassRecord noClassRow extract_noclass (by rfl)⟩

/-! ### Digit-rendering lemmas (for C9, idempotence of the Number Normalizer) -/

/-- Digit characters are decimal digits. -/
theorem digitChar_isDigit (n : ℕ) (h : n < 10) : (digitChar n).isDigit = true := by
  interval_cases n <;> decide

/-- Value of a rendered digit character. -/
theorem digitVal_digitChar (n : ℕ) (h : n < 10) : digitVal (digitChar n) = n := by
  interval_cases n <;> decide

/-- Characters a rendered number can contain: sign, point and digits. -/
def plainChars : List Char :=
  ['-', '.', '0', '1', '2', '3', '4', '5', '6', '7', '8', '9']

/-- Rendered digit characters lie in the plain-character set. -/
theorem digitChar_mem_plain (n : ℕ) (h : n < 10) : digitChar n ∈ plainChars := by
  interval_cases n <;> decide

/-- Every character of a rendered natural number is a decimal digit. -/
theorem natToDigits_all_digit (n : ℕ) : ∀ c ∈ natToDigits n, c.isDigit = true := by
  induction n using Nat.strong_induction_on with
  | _ n ih =>
    intro c hc
    rw [natToDigits] at hc
    by_cases h : n < 10
    · rw [dif_pos h] at hc
      rw [List.mem_singleton] at hc
      rw [hc]
      exact digitChar_isDigit n h
    · rw [dif_neg h] at hc
      rw [List.mem_append] at hc
      rcases hc with hc | hc
      · exact ih (n / 10) (Nat.div_lt_self (by omega) (by norm_num)) c hc
      · rw [List.mem_singleton] at hc
        rw [hc]
        exact digitChar_isDigit (n % 10) (Nat.mod_lt n (by norm_num))

/-- Every character of a rendered natural number is a plain character. -/
theorem natToDigits_mem_plain (n : ℕ) : ∀ c ∈ natToDigits n, c ∈ plainChars := by
  induction n using Nat.strong_induction_on with
  | _ n ih =>
    intro c hc
    rw [natToDigits] at hc
    by_cases h : n < 10
    · rw [dif_pos h] at hc
      rw [List.mem_singleton] at hc
      rw [hc]
      exact digitChar_mem_plain n h
    · rw [dif_neg h] at hc
      rw [List.mem_append] at hc
      rcases hc with hc | hc
      · exact ih (n / 10) (Nat.div_lt_self (by omega) (by norm_num)) c hc
      · rw [List.mem_singleton] at hc
        rw [hc]
        exact digitChar_mem_plain (n % 10) (Nat.mod_lt n (by norm_num))

/-- A rendered natural number is never the empty string. -/
theorem natToDigits_ne_nil (n : ℕ) : natToDigits n ≠ [] := by
  rw [natToDigits]
  by_cases h : n < 10
  · rw [dif_pos h]
    simp
  · rw [dif_neg h]
    simp

/-- Digit-list value of a snoc. -/
theorem digitsToNat_append_single (ds : List Char) (c : Char) :
    digitsToNat (ds ++ [c]) = 10 * digitsToNat ds + digitVal c := by
  simp [digitsToNat, List.foldl_append]

/-- Round trip: the value of the rendered digits of `n` is `n`. -/
theorem digitsToNat_natToDigits (n : ℕ) : digitsToNat (natToDigits n) = n := by
  induction n using Nat.strong_induction_on with
  | _ n ih =>
    rw [natToDigits]
    by_cases h : n < 10
    · rw [dif_pos h]
      show 10 * 0 + digitVal (digitChar n) = n
      rw [digitVal_digitChar n h]
      omega
    · rw [dif_neg h]
      rw [digitsToNat_append_single]
      rw [ih (n / 10) (Nat.div_lt_self (by omega) (by norm_num))]
      rw [digitVal_digitChar (n % 10) (Nat.mod_lt n (by norm_num))]
      omega

/-- Length bound: a natural below `10 ^ k` renders in at most `k` digits. -/
theorem natToDigits_length_le :
    ∀ (k n : ℕ), n < 10 ^ k → 1 ≤ k → (natToDigits n).length ≤ k := by
  intro k
  induction k with
  | zero => intro n _ h1; omega
  | succ k ih =>
    intro n hn _
    rw [natToDigits]
    by_cases h : n < 10
    · rw [dif_pos h]
      simp
    · rw [dif_neg h]
      rw [List.length_append]
      have hk1 : 1 ≤ k := by
        by_contra hk0
        have : k = 0 := by omega
        subst this
        simp [pow_one] at hn
        omega
      have hdiv : n / 10 < 10 ^ k := by
        rw [Nat.div_lt_iff_lt_mul (by norm_num)]
        calc n < 10 ^ (k + 1) := hn
        _ = 10 ^ k * 10 := by ring
      have := ih (n / 10) hdiv hk1
      simp only [List.length_singleton]
      omega

/-- Leading zeros do not change the value of a digit list. -/
theorem digitsToNat_replicate_zero (m : ℕ) (ds : List Char) :
    digitsToNat (List.replicate m '0' ++ ds) = digitsToNat ds := by
  induction m with
  | zero => rfl
  | succ m ih =>
    rw [List.replicate_succ, List.cons_append]
    show (List.replicate m '0' ++ ds).foldl
      (fun a c => 10 * a + digitVal c) (10 * 0 + digitVal '0') = digitsToNat ds
    have : (10 * 0 + digitVal '0') = 0 := by decide
    rw [this]
    exact ih

/-- Splitting behaviour of `takeDigits` on a digit run followed by a
non-digit remainder (or nothing). -/
theorem takeDigits_append (ds rest : List Char)
    (hds : ∀ c ∈ ds, c.isDigit = true)
    (hrest : ∀ c t, rest = c :: t → c.isDigit = false) :
    takeDigits (ds ++ rest) = (ds, rest) := by
  induction ds with
  | nil =>
    cases rest with
    | nil => rfl
    | cons c t => simp [takeDigits, hrest c t rfl]
  | cons d ds ih =>
    have hd : d.isDigit = true := hds d (List.mem_cons_self d ds)
    have hih := ih (fun c hc => hds c (List.mem_cons_of_mem d hc))
    simp [takeDigits, hd, hih]

/-- Case-insensitive prefix test failure at the first character. -/
theorem matchesCI_cons_false (p : Char) (ps : List Char) (c : Char)
    (rest : List Char) (h : (asciiLower p == asciiLower c) = false) :
    matchesCI (p :: ps) (c :: rest) = false := by
  simp only [matchesCI, List.map_cons, List.isPrefixOf]
  rw [h]
  rfl

/-- Token stripping leaves a string of plain characters unchanged: no plain
character is in the stripped class, none starts a case-insensitive match of
`CHF` or `lots`, and none is `≈`. -/
theorem stripTokens_plain :
    ∀ s : List Char, (∀ c ∈ s, c ∈ plainChars) → stripTokens s = s := by
  intro s
  induction s with
  | nil => intro _; rw [stripTokens]
  | cons c rest ih =>
    intro h
    have hc : c ∈ plainChars := h c (List.mem_cons_self c rest)
    have h1 : strippedChar c = false := by
      simp only [plainChars] at hc
      fin_cases hc <;> decide
    have h2 : matchesCI (['C', 'H', 'F']) (c :: rest) = false := by
      refine matchesCI_cons_false _ _ _ _ ?_
      simp only [plainChars] at hc
      fin_cases hc <;> decide
    have h3 : ¬(c = '≈') := by
      simp only [plainChars] at hc
      fin_cases hc <;> decide
    have h4 : matchesCI (['l', 'o', 't', 's']) (c :: rest) = false := by
      refine matchesCI_cons_false _ _ _ _ ?_
      simp only [plainChars] at hc
      fin_cases hc <;> decide
    have hrest := ih (fun d hd => h d (List.mem_cons_of_mem c hd))
    rw [stripTokens]
    simp [h1, h2, h3, h4, hrest]

/-- Sign splitting on a head character that is not a sign. -/
theorem splitSign_cons (c : Char) (t : List Char) (h1 : ¬(c = '-'))
    (h2 : ¬(c = '+')) : splitSign (c :: t) = (1, c :: t) := by
  unfold splitSign
  split
  · rename_i heq
    injection heq with hc _
    exact absurd hc h1
  · rename_i heq
    injection heq with hc _
    exact absurd hc h2
  · rfl

/-- Sign splitting on a minus sign. -/
theorem splitSign_neg (t : List Char) : splitSign ('-' :: t) = (-1, t) := rfl

/-- A divisor of a power of ten divides the power of ten with exponent
itself: repeatedly split off a common factor with 10. -/
theorem dvd_pow_ten_self :
    ∀ d : ℕ, 0 < d → (∃ k, d ∣ 10 ^ k) → d ∣ 10 ^ d := by
  intro d
  induction d using Nat.strong_induction_on with
  | _ d ih =>
    intro hd hk
    obtain ⟨k, hdvd⟩ := hk
    by_cases hd1 : d = 1
    · subst hd1
      exact one_dvd _
    · have hd2 : 2 ≤ d := by omega
      set g := Nat.gcd 10 d with hg
      have hg10 : g ∣ 10 := Nat.gcd_dvd_left 10 d
      have hgd : g ∣ d := Nat.gcd_dvd_right 10 d
      have hg1 : 1 < g := by
        rcases Nat.lt_or_ge g 2 with hlt | hge
        · exfalso
          have hgpos : 0 < g := Nat.gcd_pos_of_pos_left d (by norm_num)
          have hgeq : g = 1 := by omega
          have hco : Nat.Coprime d 10 := by
            rw [Nat.coprime_comm]
            exact hgeq
          have hco10 : Nat.Coprime d (10 ^ k) := Nat.Coprime.pow_right k hco
          have : d = 1 := Nat.Coprime.eq_one_of_dvd hco10 hdvd
          exact hd1 this
        · exact hge
      set e := d / g with he
      have hed : e < d := Nat.div_lt_self hd hg1
      have hmul : g * e = d := Nat.mul_div_cancel' hgd
      have hepos : 0 < e := by
        rcases Nat.eq_zero_or_pos e with h0 | hpos
        · rw [h0, Nat.mul_zero] at hmul
          omega
        · exact hpos
      have hek : e ∣ 10 ^ k := dvd_trans (Dvd.intro_left g hmul) hdvd
      have hee : e ∣ 10 ^ e := ih e hed hepos ⟨k, hek⟩
      have hstep : d ∣ 10 ^ (e + 1) := by
        rw [pow_succ, Nat.mul_comm (10 ^ e) 10]
        rw [← hmul]
        exact Nat.mul_dvd_mul hg10 hee
      exact dvd_trans hstep (pow_dvd_pow 10 (by omega))

/-- The search for a decimal exponent succeeds on every denominator that
divides some power of ten, and returns a valid exponent. -/
theorem pow10Exp_spec (d : ℕ) (hd : 0 < d) (hk : ∃ k, d ∣ 10 ^ k) :
    ∃ k, pow10Exp d = Option.some k ∧ d ∣ 10 ^ k := by
  have hdd : d ∣ 10 ^ d := dvd_pow_ten_self d hd hk
  have hsome : (pow10Exp d).isSome = true := by
    rw [pow10Exp, List.find?_isSome]
    exact ⟨d, by simp [List.mem_range], by simp [hdd]⟩
  obtain ⟨k, hkeq⟩ := Option.isSome_iff_exists.mp hsome
  refine ⟨k, hkeq, ?_⟩
  have := List.find?_some hkeq
  simpa using this

/-- Parsing a rendered unsigned decimal recovers its value. -/
theorem parseBody_render (sgn : ℚ) (ip fpart k : ℕ) (hk : 1 ≤ k)
    (hfp : fpart < 10 ^ k) :
    parseBody sgn (natToDigits ip ++ '.' ::
      (List.replicate (k - (natToDigits fpart).length) '0' ++ natToDigits fpart)) =
      Option.some (sgn * ((ip : ℚ) + (fpart : ℚ) / 10 ^ k)) := by
  set ipd := natToDigits ip with hipd
  set fpd := natToDigits fpart with hfpd
  set pad := List.replicate (k - fpd.length) '0' ++ fpd with hpad
  have hsplit1 : takeDigits (ipd ++ '.' :: pad) = (ipd, '.' :: pad) := by
    refine takeDigits_append ipd ('.' :: pad) (natToDigits_all_digit ip) ?_
    intro c t h
    injection h with h1 _
    rw [← h1]
    decide
  have hpadd : ∀ c ∈ pad, c.isDigit = true := by
    intro c hcm
    rw [hpad, List.mem_append] at hcm
    rcases hcm with hcm | hcm
    · rw [List.eq_of_mem_replicate hcm]
      decide
    · exact natToDigits_all_digit fpart c hcm
  have hsplit2 : takeDigits (pad ++ []) = (pad, []) := by
    refine takeDigits_append pad [] hpadd ?_
    intro c t h
    exact absurd h (by simp)
  rw [List.append_nil] at hsplit2
  have hle : fpd.length ≤ k := natToDigits_length_le k fpart hfp hk
  have hlen : pad.length = k := by
    rw [hpad, List.length_append, List.length_replicate]
    omega
  have hval : digitsToNat pad = fpart := by
    rw [hpad, digitsToNat_replicate_zero]
    exact digitsToNat_natToDigits fpart
  have hipv : digitsToNat ipd = ip := digitsToNat_natToDigits ip
  have hipne : ipd.isEmpty = false := by
    have hne := natToDigits_ne_nil ip
    rw [← hipd] at hne
    cases h : ipd with
    | nil => exact absurd h hne
    | cons a t => rfl
  simp only [parseBody, hsplit1, hsplit2, hipne, parseExpTail]
  simp [hipv, hval, hlen]

/-- Round trip through rendering, stripping and parsing: the Number
Normalizer's numeric pipeline recovers every nonzero decimal-representable
rational from its own rendering. -/
theorem parse_render (q : ℚ) (hk : ∃ k, q.den ∣ 10 ^ k) :
    parseNumeric (stripTokens (pyStrOfRat q)) = Option.some q := by
  obtain ⟨k1, hfind, hdvd⟩ := pow10Exp_spec q.den q.pos hk
  have hk'1 : 1 ≤ max k1 1 := le_max_right _ _
  have hdvd' : q.den ∣ 10 ^ max k1 1 :=
    dvd_trans hdvd (pow_dvd_pow 10 (le_max_left _ _))
  have hfp : q.num.natAbs * 10 ^ max k1 1 / q.den % 10 ^ max k1 1 < 10 ^ max k1 1 :=
    Nat.mod_lt _ (by positivity)
  have hrender : pyStrOfRat q =
      (if q.num < 0 then ['-'] else []) ++
        natToDigits (q.num.natAbs * 10 ^ max k1 1 / q.den / 10 ^ max k1 1) ++ '.' ::
        (List.replicate (max k1 1 -
            (natToDigits (q.num.natAbs * 10 ^ max k1 1 / q.den % 10 ^ max k1 1)).length)
          '0' ++
          natToDigits (q.num.natAbs * 10 ^ max k1 1 / q.den % 10 ^ max k1 1)) := by
    rw [pyStrOfRat, hfind]
  have hplain : ∀ c ∈ pyStrOfRat q, c ∈ plainChars := by
    rw [hrender]
    intro c hc
    rw [List.append_assoc, List.mem_append] at hc
    rcases hc with hc | hc
    · by_cases hneg : q.num < 0
      · rw [if_pos hneg] at hc
        rw [List.mem_singleton] at hc
        rw [hc]
        decide
      · rw [if_neg hneg] at hc
        exact absurd hc (by simp)
    · rw [List.mem_append] at hc
      rcases hc with hc | hc
      · exact natToDigits_mem_plain _ c hc
      · rw [List.mem_cons] at hc
        rcases hc with hc | hc
        · rw [hc]
          decide
        · rw [List.mem_append] at hc
          rcases hc with hc | hc
          · rw [List.eq_of_mem_replicate hc]
            decide
          · exact natToDigits_mem_plain _ c hc
  have hstrip : stripTokens (pyStrOfRat q) = pyStrOfRat q :=
    stripTokens_plain _ hplain
  have hden0 : (q.den : ℚ) ≠ 0 := Nat.cast_ne_zero.mpr q.den_nz
  have h100 : ((10 : ℚ) ^ max k1 1) ≠ 0 := by positivity
  have hmodc : ((q.num.natAbs * 10 ^ max k1 1 / q.den / 10 ^ max k1 1 : ℕ) : ℚ) *
        10 ^ max k1 1 +
        ((q.num.natAbs * 10 ^ max k1 1 / q.den % 10 ^ max k1 1 : ℕ) : ℚ) =
      ((q.num.natAbs * 10 ^ max k1 1 / q.den : ℕ) : ℚ) := by
    have hh := Nat.div_add_mod (q.num.natAbs * 10 ^ max k1 1 / q.den) (10 ^ max k1 1)
    calc ((q.num.natAbs * 10 ^ max k1 1 / q.den / 10 ^ max k1 1 : ℕ) : ℚ) *
          10 ^ max k1 1 +
          ((q.num.natAbs * 10 ^ max k1 1 / q.den % 10 ^ max k1 1 : ℕ) : ℚ)
        = (((10 ^ max k1 1) * (q.num.natAbs * 10 ^ max k1 1 / q.den / 10 ^ max k1 1) +
            q.num.natAbs * 10 ^ max k1 1 / q.den % 10 ^ max k1 1 : ℕ) : ℚ) := by
          push_cast
          ring
      _ = _ := by rw [hh]
  have hNval : ((q.num.natAbs * 10 ^ max k1 1 / q.den : ℕ) : ℚ) =
      (q.num.natAbs : ℚ) * 10 ^ max k1 1 / q.den := by
    rw [Nat.cast_div (Dvd.dvd.mul_left hdvd' q.num.natAbs) hden0]
    push_cast
    ring
  have harith :
      ((q.num.natAbs * 10 ^ max k1 1 / q.den / 10 ^ max k1 1 : ℕ) : ℚ) +
        ((q.num.natAbs * 10 ^ max k1 1 / q.den % 10 ^ max k1 1 : ℕ) : ℚ) /
          10 ^ max k1 1 =
      (q.num.natAbs : ℚ) / q.den := by
    calc ((q.num.natAbs * 10 ^ max k1 1 / q.den / 10 ^ max k1 1 : ℕ) : ℚ) +
          ((q.num.natAbs * 10 ^ max k1 1 / q.den % 10 ^ max k1 1 : ℕ) : ℚ) /
            10 ^ max k1 1
        = (((q.num.natAbs * 10 ^ max k1 1 / q.den / 10 ^ max k1 1 : ℕ) : ℚ) *
            10 ^ max k1 1 +
            ((q.num.natAbs * 10 ^ max k1 1 / q.den % 10 ^ max k1 1 : ℕ) : ℚ)) /
            10 ^ max k1 1 := by
          field_simp
      _ = ((q.num.natAbs * 10 ^ max k1 1 / q.den : ℕ) : ℚ) / 10 ^ max k1 1 := by
          rw [hmodc]
      _ = (q.num.natAbs : ℚ) * 10 ^ max k1 1 / q.den / 10 ^ max k1 1 := by
          rw [hNval]
      _ = (q.num.natAbs : ℚ) / q.den := by
          field_simp
          ring
  rw [hstrip]
  by_cases hneg : q.num < 0
  · have hrender2 : pyStrOfRat q = '-' ::
        (natToDigits (q.num.natAbs * 10 ^ max k1 1 / q.den / 10 ^ max k1 1) ++ '.' ::
          (List.replicate (max k1 1 -
              (natToDigits
                (q.num.natAbs * 10 ^ max k1 1 / q.den % 10 ^ max k1 1)).length)
            '0' ++
            natToDigits (q.num.natAbs * 10 ^ max k1 1 / q.den % 10 ^ max k1 1))) := by
      rw [hrender, if_pos hneg]
      simp
    rw [hrender2, parseNumeric, splitSign_neg]
    rw [parseBody_render (-1) _ _ (max k1 1) hk'1 hfp]
    rw [harith]
    have hna : (q.num.natAbs : ℚ) = -(q.num : ℚ) := by
      rw [Int.cast_natAbs, abs_of_neg hneg]
      push_cast
      ring
    rw [hna]
    rw [neg_div, neg_mul_neg, one_mul, Rat.num_div_den]
  · have hrender3 : pyStrOfRat q =
        natToDigits (q.num.natAbs * 10 ^ max k1 1 / q.den / 10 ^ max k1 1) ++ '.' ::
          (List.replicate (max k1 1 -
              (natToDigits
                (q.num.natAbs * 10 ^ max k1 1 / q.den % 10 ^ max k1 1)).length)
            '0' ++
            natToDigits (q.num.natAbs * 10 ^ max k1 1 / q.den % 10 ^ max k1 1)) := by
      rw [hrender, if_neg hneg]
      simp
    cases hct : natToDigits (q.num.natAbs * 10 ^ max k1 1 / q.den / 10 ^ max k1 1) with
    | nil => exact absurd hct (natToDigits_ne_nil _)
    | cons c t =>
      have hcd : c.isDigit = true :=
        natToDigits_all_digit _ c (by rw [hct]; exact List.mem_cons_self c t)
      have hc1 : ¬(c = '-') := by
        intro hcc
        rw [hcc] at hcd
        exact absurd hcd (by decide)
      have hc2 : ¬(c = '+') := by
        intro hcc
        rw [hcc] at hcd
        exact absurd hcd (by decide)
      have hshape : pyStrOfRat q = c :: (t ++ '.' ::
          (List.replicate (max k1 1 -
              (natToDigits
                (q.num.natAbs * 10 ^ max k1 1 / q.den % 10 ^ max k1 1)).length)
            '0' ++
            natToDigits (q.num.natAbs * 10 ^ max k1 1 / q.den % 10 ^ max k1 1))) := by
        rw [hrender3, hct]
        simp
      rw [parseNumeric, hshape, splitSign_cons c _ hc1 hc2, ← hshape, hrender3]
      rw [parseBody_render 1 _ _ (max k1 1) hk'1 hfp]
      rw [harith]
      have hna : (q.num.natAbs : ℚ) = (q.num : ℚ) := by
        rw [Int.cast_natAbs, abs_of_nonneg (not_lt.mp hneg)]
      rw [hna, one_mul, Rat.num_div_den]

/-- C9 counterexample: zero is a value of the Number Normalizer's own
output (e.g. on input text `0`), but re-normalizing that value yields the
missing marker instead of the value — the number 0 is falsy in Python and
is routed to the absent-input branch — so the normalizer is not idempotent
on its own output as claimed. -/
theorem c9_counterexample :
    clean_and_format_number (PyVal.str ("0")) = Option.some 0 ∧
    clean_and_format_number (PyVal.num 0) = Option.none := by
  constructor
  · simp [clean_and_format_number, pyTruthy, pyStr, stripTokens, strippedChar,
      matchesCI, asciiLower, parseNumeric, splitSign, parseBody, takeDigits,
      parseExpTail, digitsToNat, digitVal]
  · simp [clean_and_format_number, pyTruthy]

/-- C9 (amended): the Number Normalizer is idempotent on its own nonzero
output — re-normalizing any nonzero decimal-representable value it produced
returns that same value, and the missing marker re-normalizes to the
missing marker — while a zero output re-normalizes to the missing marker
(Python falsiness), as the counterexample shows. -/
theorem c9_idempotent_nonzero (q : ℚ) (hq : q ≠ 0)
    (hk : ∃ k, q.den ∣ 10 ^ k) :
    clean_and_format_number (PyVal.num q) = Option.some q ∧
    clean_and_format_number PyVal.none = Option.none := by
  constructor
  · have ht : pyTruthy (PyVal.num q) = true := by simp [pyTruthy, hq]
    simp only [clean_and_format_number, ht, Bool.not_true, Bool.false_eq_true,
      if_false, pyStr]
    exact parse_render q hk
  · rfl

/-- Sample nonzero decimal-representable value 5/2, given by its reduced
numerator and denominator. -/
def sampleRat : ℚ := ⟨5, 2, by decide, by decide⟩

/-- C9 witness: re-normalizing the output value 5/2 returns 5/2, and the
missing marker re-normalizes to the missing marker. -/
theorem c9_idempotent_nonzero_witness :
    clean_and_format_number (PyVal.num sampleRat) = Option.some sampleRat ∧
    clean_and_format_number PyVal.none = Option.none :=
  c9_idempotent_nonzero sampleRat (by decide) ⟨1, by decide⟩

end Dashboard
